import Mathlib

/-!
Shallow embedding of the tree-view selection engine from
packages/x-tree-view/src/internals/plugins/useTreeViewSelection/useTreeViewSelection.ts.

The externally visible selection value is either a scalar id (possibly null, Single
mode) or an array of ids (Multi mode).  The engine keeps two pieces of session state
besides the value: the anchor (lastSelectedItem) and the lookup of ids added by the
most recent range operation (lastSelectedRange).  JavaScript objects used as lookups
are modelled as duplicate-free lists of keys in insertion order; the only observations
the code makes on them are key membership, key deletion and emptiness.  Optional
callbacks are modelled as configuration booleans plus an explicit notification list
returned by each operation.
-/

namespace TreeViewSelection

/-- Selection value: a scalar id or null (Single mode) or an array of ids (Multi
mode); mirrors the `string | string[] | null` model value, with the array case
distinguished the way `Array.isArray` distinguishes it. -/
inductive SelectedItems where
  | single : Option String → SelectedItems
  | multi : List String → SelectedItems
  deriving DecidableEq, Repr

/-- The session state of the plugin: the `lastSelectedItem` ref (anchor), the
`lastSelectedRange` ref (lookup keys) and the controlled `selectedItems` model. -/
structure SelectionState where
  lastSelectedItem : Option String
  lastSelectedRange : List String
  selectedItems : SelectedItems
  deriving DecidableEq, Repr

/-- The defaultized plugin parameters the selection code reads: the two behaviour
flags, and whether each of the two optional callbacks is configured. -/
structure Params where
  disableSelection : Bool
  multiSelect : Bool
  onItemSelectionToggle : Bool
  onSelectedItemsChange : Bool
  deriving DecidableEq, Repr

/-- A callback invocation recorded by `setSelectedItems`: a per-item toggle
`onItemSelectionToggle(event, itemId, isSelected)` or the aggregate
`onSelectedItemsChange(event, newValue)`. -/
inductive SelectionNotification where
  | itemSelectionToggle : String → Bool → SelectionNotification
  | selectedItemsChange : SelectedItems → SelectionNotification
  deriving DecidableEq, Repr

/-- Setting a key in a JavaScript object used as a lookup: a new key goes to the end
of the key order, an existing key keeps its position. -/
def lookupInsert (l : List String) (k : String) : List String :=
  if l.contains k then l else l ++ [k]

/-- Modelled from the spec: `getLookupFromArray` from useTreeViewSelection.utils
(not under src/), per section 4.4 of the spec it builds the lookup whose keys are
exactly the ids of the array. -/
def getLookupFromArray (xs : List String) : List String :=
  xs.foldl lookupInsert []

/-- Modelled from the spec: `convertSelectedItemsToArray` from
useTreeViewSelection.utils (not under src/), per section 4.4 of the spec it
normalizes the selection value to an array, treating null as the empty array. -/
def convertSelectedItemsToArray : SelectedItems → List String
  | .multi ids => ids
  | .single (some id) => [id]
  | .single none => []

/-- Modelled from the spec: the Tree Index collaborator (tree utilities are not under
src/).  The engine only consumes it through the navigable-item queries of section 6,
so it is modelled as the ordered sequence of currently navigable item ids, in tree
(Tremaux) order. -/
structure TreeIndex where
  navigableItems : List String
  deriving DecidableEq, Repr

/-- Modelled from the spec: `getAllNavigableItems` returns every currently navigable
id in tree order. -/
def getAllNavigableItems (t : TreeIndex) : List String :=
  t.navigableItems

/-- Modelled from the spec: the Range Extractor `getNonDisabledItemsInRange` —
inclusive of both endpoints, restricted to navigable nodes, in tree order regardless
of which endpoint is earlier; an id absent from the Tree Index yields an empty
sequence rather than failing (spec sections 4.2 and 7). -/
def getNonDisabledItemsInRange (t : TreeIndex) (a b : String) : List String :=
  match t.navigableItems.findIdx? (fun x => x == a),
      t.navigableItems.findIdx? (fun x => x == b) with
  | some i, some j => (t.navigableItems.drop (min i j)).take (max i j + 1 - min i j)
  | _, _ => []

/-- The memoized `selectedItemsMap`: a Map built from the model value, one key per
selected id (modelled by its key list). -/
def selectedItemsMap : SelectedItems → List String
  | .multi ids => ids.foldl lookupInsert []
  | .single (some id) => [id]
  | .single none => []

/-- `isItemSelected`: membership in the memoized map. -/
def isItemSelected (value : SelectedItems) (itemId : String) : Bool :=
  (selectedItemsMap value).contains itemId

/-- `setSelectedItems`: emits the per-item toggle notifications (when configured),
then the aggregate change notification (when configured), and stores the new value.
In the Multi branch the code narrows both values to arrays with a cast; in the
Single branch it narrows both to scalars, which the match below reflects. -/
def setSelectedItems (p : Params) (st : SelectionState) (newSelectedItems : SelectedItems) :
    SelectionState × List SelectionNotification :=
  let toggleNotifications :=
    if p.onItemSelectionToggle then
      if p.multiSelect then
        let newArr := convertSelectedItemsToArray newSelectedItems
        let addedItems := newArr.filter fun itemId => !isItemSelected st.selectedItems itemId
        let removedItems := (convertSelectedItemsToArray st.selectedItems).filter
          fun itemId => !newArr.contains itemId
        addedItems.map (fun itemId => SelectionNotification.itemSelectionToggle itemId true) ++
          removedItems.map fun itemId => SelectionNotification.itemSelectionToggle itemId false
      else if newSelectedItems != st.selectedItems then
        (match st.selectedItems with
          | .single (some oldId) => [SelectionNotification.itemSelectionToggle oldId false]
          | _ => []) ++
          (match newSelectedItems with
            | .single (some newId) => [SelectionNotification.itemSelectionToggle newId true]
            | _ => [])
      else []
    else []
  let changeNotifications :=
    if p.onSelectedItemsChange then [SelectionNotification.selectedItemsChange newSelectedItems]
    else []
  ({ st with selectedItems := newSelectedItems }, toggleNotifications ++ changeNotifications)

/-- `selectItem(event, itemId, multiple)`: no-op when selection is disabled; the
`multiple` branch toggles the id in the array form, the discrete branch replaces the
value; afterwards the anchor is set to the id and the last range lookup is cleared. -/
def selectItem (p : Params) (st : SelectionState) (itemId : String) (multiple : Bool) :
    SelectionState × List SelectionNotification :=
  if p.disableSelection then (st, [])
  else
    let newSelected : SelectedItems :=
      if multiple then
        let cleanSelectedItems := convertSelectedItemsToArray st.selectedItems
        if isItemSelected st.selectedItems itemId then
          .multi (cleanSelectedItems.filter fun id => id != itemId)
        else
          .multi ([itemId] ++ cleanSelectedItems)
      else if p.multiSelect then .multi [itemId]
      else .single (some itemId)
    let r := setSelectedItems p st newSelected
    ({ r.1 with lastSelectedItem := some itemId, lastSelectedRange := [] }, r.2)

/-- `selectRange(event, [start, end])`: Multi mode only; removes the previous range
ids from the model, appends the ids of the new range that are not already present,
and records the new range in the last range lookup. -/
def selectRange (p : Params) (t : TreeIndex) (st : SelectionState) (start stop : String) :
    SelectionState × List SelectionNotification :=
  if p.disableSelection || !p.multiSelect then (st, [])
  else
    let newSelectedItems0 := convertSelectedItemsToArray st.selectedItems
    let newSelectedItems1 :=
      if st.lastSelectedRange.length > 0 then
        newSelectedItems0.filter fun id => !st.lastSelectedRange.contains id
      else newSelectedItems0
    let selectedItemsLookup := getLookupFromArray newSelectedItems1
    let range := getNonDisabledItemsInRange t start stop
    let itemsToAddToModel := range.filter fun id => !selectedItemsLookup.contains id
    let newSelectedItems := newSelectedItems1 ++ itemsToAddToModel
    let r := setSelectedItems p st (.multi newSelectedItems)
    ({ r.1 with lastSelectedRange := getLookupFromArray range }, r.2)

/-- `selectAllNavigableItems(event)`: Multi mode only; selects every navigable item
and records the full set as the last range. -/
def selectAllNavigableItems (p : Params) (t : TreeIndex) (st : SelectionState) :
    SelectionState × List SelectionNotification :=
  if p.disableSelection || !p.multiSelect then (st, [])
  else
    let navigableItems := getAllNavigableItems t
    let r := setSelectedItems p st (.multi navigableItems)
    ({ r.1 with lastSelectedRange := getLookupFromArray navigableItems }, r.2)

/-- `selectItemFromArrowNavigation(event, currentItem, nextItem)`: shift+arrow
extension; Multi mode only. -/
def selectItemFromArrowNavigation (p : Params) (st : SelectionState)
    (currentItem nextItem : String) : SelectionState × List SelectionNotification :=
  if p.disableSelection || !p.multiSelect then (st, [])
  else
    let newSelectedItems := convertSelectedItemsToArray st.selectedItems
    if st.lastSelectedRange.length == 0 then
      let newSelectedItems := newSelectedItems ++ [nextItem]
      let newRange := lookupInsert (lookupInsert [] currentItem) nextItem
      setSelectedItems p { st with lastSelectedRange := newRange } (.multi newSelectedItems)
    else
      let range1 :=
        if st.lastSelectedRange.contains currentItem then st.lastSelectedRange else []
      if range1.contains nextItem then
        let newSelectedItems := newSelectedItems.filter fun id => id != currentItem
        let newRange := range1.erase currentItem
        setSelectedItems p { st with lastSelectedRange := newRange } (.multi newSelectedItems)
      else
        let newSelectedItems := newSelectedItems ++ [nextItem]
        let newRange := lookupInsert range1 nextItem
        setSelectedItems p { st with lastSelectedRange := newRange } (.multi newSelectedItems)

/-- The ids kept by a range operation before the new range is appended: the current
value as an array, with the ids of the last applied range removed. -/
def keptItems (st : SelectionState) : List String :=
  (convertSelectedItemsToArray st.selectedItems).filter fun id =>
    !st.lastSelectedRange.contains id

/-- The aggregate change notifications of a notification list, with the value each
one carries. -/
def aggregateValues (ns : List SelectionNotification) : List SelectedItems :=
  ns.filterMap fun n =>
    match n with
    | .selectedItemsChange v => some v
    | .itemSelectionToggle _ _ => none

theorem lookupInsert_contains (l : List String) (k a : String) :
    (lookupInsert l k).contains a = (l.contains a || a == k) := by
  by_cases hk : k ∈ l <;> by_cases ha : a = k <;>
    simp_all [lookupInsert]

theorem foldl_lookupInsert_contains (xs : List String) (acc : List String) (a : String) :
    (xs.foldl lookupInsert acc).contains a = (acc.contains a || xs.contains a) := by
  induction xs generalizing acc with
  | nil => simp
  | cons x xs ih =>
      simp only [List.foldl_cons, ih, lookupInsert_contains, List.contains_cons]
      cases h1 : acc.contains a <;> cases h2 : (a == x) <;> simp [h1, h2]

theorem getLookupFromArray_contains (xs : List String) (a : String) :
    (getLookupFromArray xs).contains a = xs.contains a := by
  rw [getLookupFromArray, foldl_lookupInsert_contains]
  simp

/-- Claim C8: for every selection value (null, one scalar id, or an array of ids)
and every id, the derived selected set agrees with the value: `isItemSelected`
returns true exactly when the id appears in the value.  Because this holds for
every value, it holds in particular for the value stored after every operation. -/
theorem isItemSelected_agrees_with_value (v : SelectedItems) (id : String) :
    isItemSelected v id = true ↔
      (match v with
        | .single x => x = some id
        | .multi ids => id ∈ ids) := by
  cases v with
  | multi ids =>
      simp only [isItemSelected, selectedItemsMap]
      rw [foldl_lookupInsert_contains]
      simp
  | single x =>
      cases x <;> simp [isItemSelected, selectedItemsMap, eq_comm]

theorem getNonDisabledItemsInRange_symm (t : TreeIndex) (a b : String) :
    getNonDisabledItemsInRange t a b = getNonDisabledItemsInRange t b a := by
  simp only [getNonDisabledItemsInRange]
  cases t.navigableItems.findIdx? (fun x => x == a) with
  | none =>
      cases t.navigableItems.findIdx? (fun x => x == b) <;> rfl
  | some i =>
      cases t.navigableItems.findIdx? (fun x => x == b) with
      | none => rfl
      | some j =>
          show (t.navigableItems.drop (min i j)).take (max i j + 1 - min i j) =
            (t.navigableItems.drop (min j i)).take (max j i + 1 - min j i)
          rw [Nat.min_comm, Nat.max_comm]

/-- Claim C5: selectRange(A, B) and selectRange(B, A) produce identical results —
the extracted range is in tree order regardless of which endpoint is earlier, so
the whole operation, resulting selection value and last range lookup included, is
symmetric in its endpoints, for every starting state. -/
theorem selectRange_symm (p : Params) (t : TreeIndex) (st : SelectionState) (a b : String) :
    selectRange p t st a b = selectRange p t st b a := by
  simp only [selectRange, getNonDisabledItemsInRange_symm t a b]

theorem mem_getLookupFromArray (xs : List String) (a : String) :
    a ∈ getLookupFromArray xs ↔ a ∈ xs := by
  simpa using getLookupFromArray_contains xs a

theorem keptItems_eq (st : SelectionState) :
    (if st.lastSelectedRange.length > 0 then
      (convertSelectedItemsToArray st.selectedItems).filter fun id =>
        !st.lastSelectedRange.contains id
    else convertSelectedItemsToArray st.selectedItems) = keptItems st := by
  by_cases hr : st.lastSelectedRange = []
  · simp [hr, keptItems]
  · have h : st.lastSelectedRange.length > 0 := List.length_pos.mpr hr
    simp [h, keptItems]

/-- Claim C1: in Multi mode with selection enabled, selectRange produces the current
value minus the ids of the last range lookup, followed by the range ids not already
present; the last range lookup then holds exactly the new range ids and the anchor
is untouched.  In Single mode or with selection disabled the state and the
notification list are both unchanged. -/
theorem selectRange_spec (p : Params) (t : TreeIndex) (st : SelectionState) (a b : String) :
    (p.multiSelect = true → p.disableSelection = false →
      (selectRange p t st a b).1.selectedItems =
          .multi (keptItems st ++
            (getNonDisabledItemsInRange t a b).filter fun id => !(keptItems st).contains id) ∧
      (∀ x, (selectRange p t st a b).1.lastSelectedRange.contains x =
          (getNonDisabledItemsInRange t a b).contains x) ∧
      (selectRange p t st a b).1.lastSelectedItem = st.lastSelectedItem) ∧
    ((p.disableSelection = true ∨ p.multiSelect = false) →
      selectRange p t st a b = (st, [])) := by
  constructor
  · intro hm hd
    have h2 : (getNonDisabledItemsInRange t a b).filter (fun id =>
        !(getLookupFromArray (keptItems st)).contains id) =
        (getNonDisabledItemsInRange t a b).filter (fun id => !(keptItems st).contains id) :=
      List.filter_congr (by intro x hx; rw [getLookupFromArray_contains])
    simp only [selectRange, hm, hd, Bool.not_true, Bool.or_false, if_false, keptItems_eq, h2,
      setSelectedItems]
    refine ⟨?_, fun x => ?_, ?_⟩ <;> simp [mem_getLookupFromArray]
  · intro h
    rcases h with h | h <;> simp [selectRange, h]

/-- Witness for claim C1 at a concrete input: range 3..1 over the tree 1,2,3,4 with
prior value [9, 2] whose id 2 came from the previous range. -/
theorem selectRange_spec_witness :
    (selectRange ⟨false, true, true, true⟩ ⟨["1", "2", "3", "4"]⟩
        ⟨some "9", ["2"], .multi ["9", "2"]⟩ "3" "1").1.selectedItems =
        .multi ["9", "1", "2", "3"] ∧
    (selectRange ⟨false, true, true, true⟩ ⟨["1", "2", "3", "4"]⟩
        ⟨some "9", ["2"], .multi ["9", "2"]⟩ "3" "1").1.lastSelectedRange.contains "4" = false ∧
    (selectRange ⟨false, true, true, true⟩ ⟨["1", "2", "3", "4"]⟩
        ⟨some "9", ["2"], .multi ["9", "2"]⟩ "3" "1").1.lastSelectedItem = some "9" := by
  obtain ⟨h1, h2, h3⟩ := (selectRange_spec ⟨false, true, true, true⟩ ⟨["1", "2", "3", "4"]⟩
    ⟨some "9", ["2"], .multi ["9", "2"]⟩ "3" "1").1 rfl rfl
  refine ⟨?_, ?_, h3⟩
  · rw [h1]; rfl
  · rw [h2 "4"]; rfl

/-- Claim C7: selectAllNavigableItems sets the value to every navigable id in tree
order, makes the last range lookup that full id set, leaves the anchor untouched,
and is a complete no-op (state and notifications) in Single mode or when selection
is disabled. -/
theorem selectAllNavigableItems_spec (p : Params) (t : TreeIndex) (st : SelectionState) :
    (p.multiSelect = true → p.disableSelection = false →
      (selectAllNavigableItems p t st).1.selectedItems = .multi (getAllNavigableItems t) ∧
      (∀ x, (selectAllNavigableItems p t st).1.lastSelectedRange.contains x =
          (getAllNavigableItems t).contains x) ∧
      (selectAllNavigableItems p t st).1.lastSelectedItem = st.lastSelectedItem) ∧
    ((p.multiSelect = false ∨ p.disableSelection = true) →
      selectAllNavigableItems p t st = (st, [])) := by
  constructor
  · intro hm hd
    simp only [selectAllNavigableItems, hm, hd, Bool.not_true, Bool.or_false, setSelectedItems]
    refine ⟨?_, fun x => ?_, ?_⟩ <;> simp [mem_getLookupFromArray]
  · intro h
    rcases h with h | h <;> simp [selectAllNavigableItems, h]

/-- Witness for claim C7 at a concrete input. -/
theorem selectAllNavigableItems_spec_witness :
    (selectAllNavigableItems ⟨false, true, true, true⟩ ⟨["1", "2", "3"]⟩
        ⟨some "7", ["1"], .multi ["2"]⟩).1.selectedItems = .multi ["1", "2", "3"] ∧
    (selectAllNavigableItems ⟨false, true, true, true⟩ ⟨["1", "2", "3"]⟩
        ⟨some "7", ["1"], .multi ["2"]⟩).1.lastSelectedRange.contains "3" = true ∧
    (selectAllNavigableItems ⟨false, true, true, true⟩ ⟨["1", "2", "3"]⟩
        ⟨some "7", ["1"], .multi ["2"]⟩).1.lastSelectedItem = some "7" := by
  obtain ⟨h1, h2, h3⟩ := (selectAllNavigableItems_spec ⟨false, true, true, true⟩
    ⟨["1", "2", "3"]⟩ ⟨some "7", ["1"], .multi ["2"]⟩).1 rfl rfl
  exact ⟨h1, by rw [h2 "3"]; rfl, h3⟩

/-- Claim C4: in Multi mode with both callbacks configured, the notification
sequence of the shared update path is one toggle(id, true) per added id in the
order the ids appear in the new value, then one toggle(id, false) per removed id
in the order they appeared in the old value, then exactly one aggregate change
notification carrying the full new value.  Every mutating operation emits its
notifications through this path. -/
theorem setSelectedItems_notification_order (p : Params) (st : SelectionState)
    (oldArr newArr : List String) :
    st.selectedItems = .multi oldArr →
    p.multiSelect = true → p.onItemSelectionToggle = true → p.onSelectedItemsChange = true →
    (setSelectedItems p st (.multi newArr)).2 =
      (newArr.filter fun id => !oldArr.contains id).map
          (fun id => SelectionNotification.itemSelectionToggle id true) ++
        (oldArr.filter fun id => !newArr.contains id).map
          (fun id => SelectionNotification.itemSelectionToggle id false) ++
        [SelectionNotification.selectedItemsChange (.multi newArr)] := by
  intro hold hm ht hc
  have hfc : newArr.filter (fun id => !isItemSelected (SelectedItems.multi oldArr) id) =
      newArr.filter fun id => !oldArr.contains id := by
    apply List.filter_congr
    intro x hx
    simp only [isItemSelected, selectedItemsMap]
    rw [foldl_lookupInsert_contains]
    simp
  simp only [setSelectedItems, hm, ht, hc, hold, if_true, convertSelectedItemsToArray, hfc]

/-- Witness for claim C4 at a concrete input: old value [a, b], new value [b, c]. -/
theorem setSelectedItems_notification_order_witness :
    (setSelectedItems ⟨false, true, true, true⟩ ⟨none, [], .multi ["a", "b"]⟩
        (.multi ["b", "c"])).2 =
      [SelectionNotification.itemSelectionToggle "c" true,
        SelectionNotification.itemSelectionToggle "a" false,
        SelectionNotification.selectedItemsChange (.multi ["b", "c"])] := by
  have h := setSelectedItems_notification_order ⟨false, true, true, true⟩
    ⟨none, [], .multi ["a", "b"]⟩ ["a", "b"] ["b", "c"] rfl rfl rfl rfl
  rw [h]
  rfl

theorem aggregateValues_append (l1 l2 : List SelectionNotification) :
    aggregateValues (l1 ++ l2) = aggregateValues l1 ++ aggregateValues l2 := by
  simp [aggregateValues]

theorem aggregateValues_map_toggle (xs : List String) (bb : Bool) :
    aggregateValues (xs.map fun id => SelectionNotification.itemSelectionToggle id bb) = [] := by
  induction xs with
  | nil => rfl
  | cons x xs ih => simp only [List.map_cons, aggregateValues, List.filterMap_cons]; exact ih

theorem aggregateValues_setSelectedItems (p : Params) (st : SelectionState)
    (v : SelectedItems) :
    aggregateValues (setSelectedItems p st v).2 =
      if p.onSelectedItemsChange then [v] else [] := by
  simp only [setSelectedItems]
  rw [aggregateValues_append]
  have htog : aggregateValues
      (if p.onItemSelectionToggle = true then
        if p.multiSelect = true then
          ((convertSelectedItemsToArray v).filter fun itemId =>
              !isItemSelected st.selectedItems itemId).map
              (fun itemId => SelectionNotification.itemSelectionToggle itemId true) ++
            ((convertSelectedItemsToArray st.selectedItems).filter fun itemId =>
                !(convertSelectedItemsToArray v).contains itemId).map
              (fun itemId => SelectionNotification.itemSelectionToggle itemId false)
        else if v != st.selectedItems then
          (match st.selectedItems with
            | .single (some oldId) => [SelectionNotification.itemSelectionToggle oldId false]
            | _ => []) ++
            (match v with
              | .single (some newId) => [SelectionNotification.itemSelectionToggle newId true]
              | _ => [])
        else []
      else []) = [] := by
    split
    · split
      · rw [aggregateValues_append, aggregateValues_map_toggle, aggregateValues_map_toggle]
        rfl
      · split
        · rw [aggregateValues_append]
          have h1 : aggregateValues
              (match st.selectedItems with
                | .single (some oldId) => [SelectionNotification.itemSelectionToggle oldId false]
                | _ => []) = [] := by
            rcases st.selectedItems with (_ | x) | xs <;> rfl
          rw [h1]
          simp only [List.nil_append]
          rcases v with (_ | x) | xs <;> rfl
        · rfl
    · rfl
  rw [htog]
  split <;> rfl

/-- Claim C9: every mutating operation that is not short-circuited emits the
aggregate change notification exactly once, carrying the computed new value, even
when that value equals the current one; in particular re-selecting the already
selected item in Single mode emits no per-item toggles but still emits the
aggregate notification. -/
theorem aggregate_change_once (p : Params) (t : TreeIndex) (st : SelectionState)
    (a b id cur next : String) (m : Bool) :
    p.onSelectedItemsChange = true →
    (∀ v, aggregateValues (setSelectedItems p st v).2 = [v]) ∧
    (p.disableSelection = false →
      (aggregateValues (selectItem p st id m).2).length = 1 ∧
      (p.multiSelect = true →
        (aggregateValues (selectRange p t st a b).2).length = 1 ∧
        (aggregateValues (selectAllNavigableItems p t st).2).length = 1 ∧
        (aggregateValues (selectItemFromArrowNavigation p st cur next).2).length = 1)) ∧
    (selectItem ⟨false, false, true, true⟩ ⟨none, [], .single (some "z")⟩ "z" false).2 =
      [SelectionNotification.selectedItemsChange (.single (some "z"))] := by
  intro hc
  refine ⟨fun v => by rw [aggregateValues_setSelectedItems, hc]; rfl,
    fun hd => ⟨?_, fun hm => ⟨?_, ?_, ?_⟩⟩, by decide⟩
  · simp only [selectItem, hd, Bool.false_eq_true, if_false]
    rw [aggregateValues_setSelectedItems, hc]
    rfl
  · simp only [selectRange, hd, hm, Bool.not_true, Bool.or_false, Bool.false_eq_true, if_false]
    rw [aggregateValues_setSelectedItems, hc]
    rfl
  · simp only [selectAllNavigableItems, hd, hm, Bool.not_true, Bool.or_false,
      Bool.false_eq_true, if_false]
    rw [aggregateValues_setSelectedItems, hc]
    rfl
  · simp only [selectItemFromArrowNavigation, hd, hm, Bool.not_true, Bool.or_false,
      Bool.false_eq_true, if_false]
    split
    · rw [aggregateValues_setSelectedItems, hc]; rfl
    · split <;> split <;> (rw [aggregateValues_setSelectedItems, hc]; rfl)

/-- Witness for claim C9: the shared update path at a concrete value, and the
Single-mode re-selection of the already selected id z, which emits only the
aggregate notification. -/
theorem aggregate_change_once_witness :
    aggregateValues (setSelectedItems ⟨false, true, true, true⟩ ⟨none, [], .multi []⟩
        (.multi ["k"])).2 = [.multi ["k"]] ∧
    (selectItem ⟨false, false, true, true⟩ ⟨none, [], .single (some "z")⟩ "z" false).2 =
      [SelectionNotification.selectedItemsChange (.single (some "z"))] := by
  have h := aggregate_change_once ⟨false, true, true, true⟩ ⟨["1"]⟩ ⟨none, [], .multi []⟩
    "a" "b" "i" "c" "n" false rfl
  exact ⟨h.1 (.multi ["k"]), h.2.2⟩

theorem length_beq_zero_false (l : List String) (h : l ≠ []) : (l.length == 0) = false := by
  cases l with
  | nil => exact absurd rfl h
  | cons x xs => rfl

/-- Claim C2: in Multi mode with selection enabled, the arrow-step extension starts
a two-element range when the last range lookup is empty; otherwise it resets the
lookup when the current id is not part of it, then either retreats (removing the
current id from selection and lookup when the next id is already in the lookup) or
extends forward (adding the next id to both).  The concrete scenario 1 to 2 to 3
then back from 3 to 2 removes id 3 from selection and range, leaving 1 and 2. -/
theorem selectItemFromArrowNavigation_spec (p : Params) (st : SelectionState)
    (cur next : String) :
    (p.multiSelect = true → p.disableSelection = false →
      (st.lastSelectedRange = [] →
        (selectItemFromArrowNavigation p st cur next).1.selectedItems =
            .multi (convertSelectedItemsToArray st.selectedItems ++ [next]) ∧
        (selectItemFromArrowNavigation p st cur next).1.lastSelectedRange =
            lookupInsert (lookupInsert [] cur) next) ∧
      (st.lastSelectedRange ≠ [] → st.lastSelectedRange.contains cur = false →
        (selectItemFromArrowNavigation p st cur next).1.selectedItems =
            .multi (convertSelectedItemsToArray st.selectedItems ++ [next]) ∧
        (selectItemFromArrowNavigation p st cur next).1.lastSelectedRange = [next]) ∧
      (st.lastSelectedRange ≠ [] → st.lastSelectedRange.contains cur = true →
        st.lastSelectedRange.contains next = true →
        (selectItemFromArrowNavigation p st cur next).1.selectedItems =
            .multi ((convertSelectedItemsToArray st.selectedItems).filter fun id =>
              id != cur) ∧
        (selectItemFromArrowNavigation p st cur next).1.lastSelectedRange =
            st.lastSelectedRange.erase cur) ∧
      (st.lastSelectedRange ≠ [] → st.lastSelectedRange.contains cur = true →
        st.lastSelectedRange.contains next = false →
        (selectItemFromArrowNavigation p st cur next).1.selectedItems =
            .multi (convertSelectedItemsToArray st.selectedItems ++ [next]) ∧
        (selectItemFromArrowNavigation p st cur next).1.lastSelectedRange =
            lookupInsert st.lastSelectedRange next)) ∧
    ((selectItemFromArrowNavigation ⟨false, true, true, true⟩
        (selectItemFromArrowNavigation ⟨false, true, true, true⟩
          (selectItemFromArrowNavigation ⟨false, true, true, true⟩
            ⟨none, [], .multi ["1"]⟩ "1" "2").1 "2" "3").1 "3" "2").1 =
      ⟨none, ["1", "2"], .multi ["1", "2"]⟩) := by
  constructor
  · intro hm hd
    refine ⟨fun hr => ?_, fun hne hcur => ?_, fun hne hcur hnext => ?_,
      fun hne hcur hnext => ?_⟩
    · simp [selectItemFromArrowNavigation, hm, hd, hr, setSelectedItems]
    · have hc : cur ∉ st.lastSelectedRange := by simpa using hcur
      simp [selectItemFromArrowNavigation, hm, hd, length_beq_zero_false _ hne, hc,
        setSelectedItems, lookupInsert]
    · have hc : cur ∈ st.lastSelectedRange := by simpa using hcur
      have hn : next ∈ st.lastSelectedRange := by simpa using hnext
      simp [selectItemFromArrowNavigation, hm, hd, length_beq_zero_false _ hne, hc, hn,
        setSelectedItems]
    · have hc : cur ∈ st.lastSelectedRange := by simpa using hcur
      have hn : next ∉ st.lastSelectedRange := by simpa using hnext
      simp [selectItemFromArrowNavigation, hm, hd, length_beq_zero_false _ hne, hc, hn,
        setSelectedItems]
  · decide

/-- Witness for claim C2: a forward extension from the tracked range [1, 2]. -/
theorem selectItemFromArrowNavigation_spec_witness :
    (selectItemFromArrowNavigation ⟨false, true, true, true⟩
        ⟨none, ["1", "2"], .multi ["1", "2"]⟩ "2" "3").1.selectedItems =
        .multi ["1", "2", "3"] ∧
    (selectItemFromArrowNavigation ⟨false, true, true, true⟩
        ⟨none, ["1", "2"], .multi ["1", "2"]⟩ "2" "3").1.lastSelectedRange =
        ["1", "2", "3"] := by
  obtain ⟨h1, h2⟩ := ((selectItemFromArrowNavigation_spec ⟨false, true, true, true⟩
    ⟨none, ["1", "2"], .multi ["1", "2"]⟩ "2" "3").1 rfl rfl).2.2.2 (by decide) rfl rfl
  exact ⟨by rw [h1]; rfl, by rw [h2]; rfl⟩

/-- Claim C10: when the last range lookup is non-empty but does not contain the
current id, the lookup is reset and the forward extension records only the next id,
whereas the fresh-start path with an empty lookup records both the current and the
next id — so for distinct ids the two start-a-range paths leave different session
state. -/
theorem arrow_reset_vs_fresh_range (p : Params) (st : SelectionState) (cur next : String) :
    (p.multiSelect = true → p.disableSelection = false →
      (st.lastSelectedRange ≠ [] → st.lastSelectedRange.contains cur = false →
        (selectItemFromArrowNavigation p st cur next).1.lastSelectedRange = [next]) ∧
      (st.lastSelectedRange = [] →
        (selectItemFromArrowNavigation p st cur next).1.lastSelectedRange =
          lookupInsert (lookupInsert [] cur) next)) ∧
    (cur ≠ next →
      lookupInsert (lookupInsert [] cur) next = [cur, next] ∧
      ([next] : List String) ≠ [cur, next]) := by
  constructor
  · intro hm hd
    constructor
    · intro hne hcur
      have hc : cur ∉ st.lastSelectedRange := by simpa using hcur
      simp [selectItemFromArrowNavigation, hm, hd, length_beq_zero_false _ hne, hc,
        setSelectedItems, lookupInsert]
    · intro hr
      simp [selectItemFromArrowNavigation, hm, hd, hr, setSelectedItems]
  · intro h
    constructor
    · simp [lookupInsert, Ne.symm h]
    · simp

/-- Witness for claim C10: current id x outside the tracked range [q]. -/
theorem arrow_reset_vs_fresh_range_witness :
    (selectItemFromArrowNavigation ⟨false, true, true, true⟩
        ⟨none, ["q"], .multi ["q"]⟩ "x" "y").1.lastSelectedRange = ["y"] ∧
    lookupInsert (lookupInsert [] "x") "y" = ["x", "y"] := by
  have h := arrow_reset_vs_fresh_range ⟨false, true, true, true⟩
    ⟨none, ["q"], .multi ["q"]⟩ "x" "y"
  exact ⟨(h.1 rfl rfl).1 (by decide) rfl, (h.2 (by decide)).1⟩

/-- Counterexample to claim C3: in Single mode with the additive flag set,
re-clicking the already selected id a clears the selection to an empty array
instead of replacing the value with the id — the additive flag is not ignored in
Single mode and a re-click can clear the selection. -/
theorem selectItem_single_additive_cex :
    (selectItem ⟨false, false, false, false⟩ ⟨none, [], .single (some "a")⟩
        "a" true).1.selectedItems = .multi [] ∧
    SelectedItems.multi [] ≠ SelectedItems.single (some "a") ∧
    isItemSelected (SelectedItems.multi []) "a" = false := by
  decide

/-- Claim C3 (amended): with the additive flag false, Single mode replaces the
value with the id (a re-click keeps it selected); with the flag true the additive
algorithm runs regardless of mode and toggles the id in the array form.  Every
non-disabled selection sets the anchor to the id and clears the last range lookup,
and when selection is disabled the state and notifications are unchanged. -/
theorem selectItem_spec (p : Params) (st : SelectionState) (id : String) (m : Bool) :
    (p.disableSelection = false → p.multiSelect = false → m = false →
      (selectItem p st id m).1.selectedItems = .single (some id)) ∧
    (p.disableSelection = false → m = true →
      (selectItem p st id m).1.selectedItems =
        (if isItemSelected st.selectedItems id then
          SelectedItems.multi ((convertSelectedItemsToArray st.selectedItems).filter fun x =>
            x != id)
        else SelectedItems.multi ([id] ++ convertSelectedItemsToArray st.selectedItems))) ∧
    (p.disableSelection = false →
      (selectItem p st id m).1.lastSelectedItem = some id ∧
      (selectItem p st id m).1.lastSelectedRange = []) ∧
    (p.disableSelection = true → selectItem p st id m = (st, [])) := by
  refine ⟨fun hd hm hmm => ?_, fun hd hm => ?_, fun hd => ?_, fun hd => ?_⟩
  · simp [selectItem, hd, hm, hmm, setSelectedItems]
  · subst hm
    simp only [selectItem, hd, Bool.false_eq_true, if_false, if_true, setSelectedItems]
  · simp [selectItem, hd, setSelectedItems]
  · simp [selectItem, hd]

/-- Witness for claim C3 (amended): Single mode, additive flag false, fresh id c. -/
theorem selectItem_spec_witness :
    (selectItem ⟨false, false, true, true⟩ ⟨none, ["r"], .single (some "b")⟩
        "c" false).1.selectedItems = .single (some "c") ∧
    (selectItem ⟨false, false, true, true⟩ ⟨none, ["r"], .single (some "b")⟩
        "c" false).1.lastSelectedItem = some "c" ∧
    (selectItem ⟨false, false, true, true⟩ ⟨none, ["r"], .single (some "b")⟩
        "c" false).1.lastSelectedRange = [] := by
  have h := selectItem_spec ⟨false, false, true, true⟩ ⟨none, ["r"], .single (some "b")⟩
    "c" false
  exact ⟨h.1 rfl rfl rfl, (h.2.2.1 rfl).1, (h.2.2.1 rfl).2⟩

theorem findIdx?_beq_none (xs : List String) (a : String) (h : a ∉ xs) :
    xs.findIdx? (fun x => x == a) = none := by
  apply List.findIdx?_eq_none_iff.mpr
  intro x hx
  exact beq_eq_false_iff_ne.mpr fun he => h (he ▸ hx)

theorem getNonDisabledItemsInRange_empty (t : TreeIndex) (a b : String)
    (h : a ∉ t.navigableItems ∨ b ∉ t.navigableItems) :
    getNonDisabledItemsInRange t a b = [] := by
  simp only [getNonDisabledItemsInRange]
  rcases h with h | h
  · rw [findIdx?_beq_none _ _ h]
  · rw [findIdx?_beq_none _ _ h]
    cases t.navigableItems.findIdx? (fun x => x == a) <;> rfl

/-- Claim C6: no operation faults on well-typed input, unknown node ids included,
and each operation is atomic on the (anchor, last range lookup, value) triple.
With selection disabled every operation leaves the state and notifications
unchanged; an id absent from the tree yields the empty range, and selectRange then
still applies its full new triple at once; each operation in the pure embedding
either returns the state unchanged or applies all of its new components together,
shown here for the anchor and lookup of selectItem and the anchor of the arrow
step. -/
theorem selection_ops_total_and_atomic (p : Params) (t : TreeIndex) (st : SelectionState)
    (a b id cur next : String) (m : Bool) :
    (p.disableSelection = true →
      selectItem p st id m = (st, []) ∧
      selectRange p t st a b = (st, []) ∧
      selectAllNavigableItems p t st = (st, []) ∧
      selectItemFromArrowNavigation p st cur next = (st, [])) ∧
    (a ∉ t.navigableItems ∨ b ∉ t.navigableItems → getNonDisabledItemsInRange t a b = []) ∧
    (p.multiSelect = true → p.disableSelection = false → a ∉ t.navigableItems →
      (selectRange p t st a b).1 =
        { lastSelectedItem := st.lastSelectedItem, lastSelectedRange := [],
          selectedItems := .multi (keptItems st) }) ∧
    (selectItem p st id m = (st, []) ∨
      ((selectItem p st id m).1.lastSelectedItem = some id ∧
        (selectItem p st id m).1.lastSelectedRange = [])) ∧
    (selectItemFromArrowNavigation p st cur next = (st, []) ∨
      (selectItemFromArrowNavigation p st cur next).1.lastSelectedItem =
        st.lastSelectedItem) := by
  refine ⟨fun h => ⟨?_, ?_, ?_, ?_⟩, getNonDisabledItemsInRange_empty t a b, ?_, ?_, ?_⟩
  · simp [selectItem, h]
  · simp [selectRange, h]
  · simp [selectAllNavigableItems, h]
  · simp [selectItemFromArrowNavigation, h]
  · intro hm hd ha
    have hr : getNonDisabledItemsInRange t a b = [] :=
      getNonDisabledItemsInRange_empty t a b (Or.inl ha)
    simp only [selectRange, hm, hd, Bool.not_true, Bool.or_false, Bool.false_eq_true,
      if_false, hr, keptItems_eq, setSelectedItems]
    simp [getLookupFromArray]
  · cases hd : p.disableSelection with
    | true => exact Or.inl (by simp [selectItem, hd])
    | false =>
        refine Or.inr ?_
        simp [selectItem, hd, setSelectedItems]
  · cases hd : p.disableSelection with
    | true => exact Or.inl (by simp [selectItemFromArrowNavigation, hd])
    | false =>
        cases hm : p.multiSelect with
        | false => exact Or.inl (by simp [selectItemFromArrowNavigation, hd, hm])
        | true =>
            refine Or.inr ?_
            simp only [selectItemFromArrowNavigation, hd, hm, Bool.not_true, Bool.or_false,
              Bool.false_eq_true, if_false]
            split
            · simp [setSelectedItems]
            · split <;> split <;> simp [setSelectedItems]

/-- Witness for claim C6: disabled selection leaves a concrete state untouched for
all four operations, and a range between ids absent from the tree is empty. -/
theorem selection_ops_total_and_atomic_witness :
    (selectItem ⟨true, true, true, true⟩ ⟨none, [], .multi []⟩ "i" false =
        (⟨none, [], .multi []⟩, []) ∧
      selectRange ⟨true, true, true, true⟩ ⟨["1"]⟩ ⟨none, [], .multi []⟩ "x" "y" =
        (⟨none, [], .multi []⟩, []) ∧
      selectAllNavigableItems ⟨true, true, true, true⟩ ⟨["1"]⟩ ⟨none, [], .multi []⟩ =
        (⟨none, [], .multi []⟩, []) ∧
      selectItemFromArrowNavigation ⟨true, true, true, true⟩ ⟨none, [], .multi []⟩ "c" "n" =
        (⟨none, [], .multi []⟩, [])) ∧
    getNonDisabledItemsInRange ⟨["1"]⟩ "x" "y" = [] := by
  have h := selection_ops_total_and_atomic ⟨true, true, true, true⟩ ⟨["1"]⟩
    ⟨none, [], .multi []⟩ "x" "y" "i" "c" "n" false
  exact ⟨h.1 rfl, h.2.1 (Or.inl (by decide))⟩

end TreeViewSelection
